import Mathlib

/-!
# f5-ctlr: desired-state derivation and current-state projection

A shallow embedding of `main.go`: `getKubernetesState` (the loop that turns
Ingress, Service and Pod objects into virtual-server descriptors) and
`buildCurrentLTMState` (the projection of the ADC pool inventory onto the
configured partition).

Go runtime panics (index out of range, nil dereference) are explicit
results, since an unrecovered panic terminates the process.  Log calls have
no effect on the returned values and are left out.
-/

namespace F5Ctlr

/-! ## Machine integers -/

/-- Go conversion `int32(x)`: two's-complement truncation to 32 bits. -/
def toInt32 (x : Int) : Int := (x + 2147483648) % 4294967296 - 2147483648

/-! ## Library functions used by the source

`strconv.ParseInt`, `strconv.Atoi`, `strings.Split` and
`labels.Set.String` are written out after the Go library; `net.ParseIP` and
`json.Unmarshal` are taken as parameters (`Lib`). -/

/-- The two error kinds of `strconv.NumError` (`ErrSyntax`, `ErrRange`). -/
inductive NumErr where
  | invalid
  | range
deriving DecidableEq, Repr

/-- Largest `uint64`. -/
def maxUint64 : Nat := 18446744073709551615

/-- Digit loop of `strconv.ParseUint(s, 10, bitSize)`: `n` is the value read
so far.  A byte that is not a decimal digit is a syntax error (value 0); a
value above `2^bitSize - 1` is a range error (value `2^bitSize - 1`). -/
def parseUintLoop (bitSize : Nat) (n : Nat) : List Char → Nat × Option NumErr
  | [] => (n, none)
  | c :: cs =>
    if '0' ≤ c ∧ c ≤ '9' then
      if n ≥ maxUint64 / 10 + 1 then (2 ^ bitSize - 1, some NumErr.range)
      else if n * 10 + (c.toNat - 48) > 2 ^ bitSize - 1 then (2 ^ bitSize - 1, some NumErr.range)
      else parseUintLoop bitSize (n * 10 + (c.toNat - 48)) cs
    else (0, some NumErr.invalid)

/-- Go `strconv.ParseUint(s, 10, bitSize)`. -/
def ParseUint (s : List Char) (bitSize : Nat) : Nat × Option NumErr :=
  match s with
  | [] => (0, some NumErr.invalid)
  | _ => parseUintLoop bitSize 0 s

/-- Go `strconv.ParseInt(s, 10, bitSize)`: the value and the error. -/
def ParseInt (s : String) (bitSize : Nat) : Int × Option NumErr :=
  match s.data with
  | [] => (0, some NumErr.invalid)
  | c :: cs =>
    let neg : Bool := c == '-'
    let body : List Char := if c == '+' || c == '-' then cs else c :: cs
    let r := ParseUint body bitSize
    if r.2 = some NumErr.invalid then (0, r.2)
    else
      let cutoff : Nat := 2 ^ (bitSize - 1)
      if !neg && decide (r.1 ≥ cutoff) then (((cutoff - 1 : Nat) : Int), some NumErr.range)
      else if neg && decide (r.1 > cutoff) then (-(cutoff : Int), some NumErr.range)
      else (if neg then -(r.1 : Int) else (r.1 : Int), none)

/-- Go `strconv.Atoi(s)` on a 64-bit platform; its fast path for short
strings returns the same value as `ParseInt(s, 10, 64)`. -/
def Atoi (s : String) : Int × Option NumErr := ParseInt s 64

/-- Go `strings.Split(s, ",")` on the characters of `s`: always at least one
part, empty parts kept. -/
def splitComma : List Char → List (List Char)
  | [] => [[]]
  | c :: cs =>
    if c = ',' then [] :: splitComma cs
    else
      match splitComma cs with
      | [] => [[c]]
      | p :: ps => (c :: p) :: ps

/-- Go `strings.Split(value, ",")`. -/
def stringsSplit (value : String) : List String :=
  (splitComma value.data).map String.mk

/-- Go `labels.Set(m).String()`: the `key=value` strings, sorted, joined by
commas.  The map is given as its list of entries. -/
def labelsSetString (m : List (String × String)) : String :=
  ",".intercalate ((m.map (fun kv => kv.1 ++ "=" ++ kv.2)).insertionSort (fun a b => ¬ b < a))

/-! ## Data model -/

/-- Go `KsVSMonitorAttributes`. -/
structure KsVSMonitorAttributes where
  Interval : Int
  Send : String
  Receive : String
  Timeout : Int
  Type_ : String
deriving DecidableEq, Repr

/-- Go `KsVSMember`. -/
structure KsVSMember where
  Name : String
  Port : Int
  IP : String
deriving DecidableEq, Repr

/-- Go `KsVirtualServer`. -/
structure KsVirtualServer where
  Name : String
  Namespace : String
  IP : String
  Port : Int
  ClientSSL : String
  ServerSSL : String
  Redirect : Bool
  DefPersist : String
  FBPersist : String
  LBMode : String
  IRules : List String
  Members : List KsVSMember
  Monitor : KsVSMonitorAttributes
deriving DecidableEq, Repr

/-- Go `KubernetesState`. -/
abbrev KubernetesState := List KsVirtualServer

/-- Kubernetes `intstr.IntOrString`. -/
inductive IntOrString where
  | int (IntVal : Int)
  | str (StrVal : String)
deriving DecidableEq, Repr

/-- Go `IntOrString.IntValue()`: a string is converted with `Atoi`, the error
dropped. -/
def IntOrString.IntValue : IntOrString → Int
  | IntOrString.int n => n
  | IntOrString.str s => (Atoi s).1

/-- Kubernetes `IngressTLS`. -/
structure IngressTLS where
  Hosts : List String
  SecretName : String
deriving DecidableEq, Repr

/-- Kubernetes `IngressBackend`. -/
structure IngressBackend where
  ServiceName : String
  ServicePort : IntOrString
deriving DecidableEq, Repr

/-- The parts of a Kubernetes `Ingress` the controller reads.  `Backend` is a
pointer in Go and may be nil. -/
structure Ingress where
  Name : String
  Namespace : String
  Annotations : List (String × String)
  TLS : List IngressTLS
  Backend : Option IngressBackend
deriving DecidableEq, Repr

/-- The parts of a Kubernetes `Service` the controller reads. -/
structure Service where
  Name : String
  Namespace : String
  Selector : List (String × String)
deriving DecidableEq, Repr

/-- The parts of a Kubernetes `Pod` the controller reads. -/
structure Pod where
  Name : String
  Namespace : String
  Labels : List (String × String)
  Phase : String
  PodIP : String
deriving DecidableEq, Repr

/-- How a run ends when it does not return a state: an error returned to
`main`, or a runtime panic. -/
inductive Failure where
  | err (msg : String)
  | panic (msg : String)
deriving DecidableEq, Repr

deriving instance DecidableEq for Except

/-- The two library calls taken as parameters: `parseIP value` is
`net.ParseIP(value) != nil`; `jsonUnmarshal value` is the slice
`json.Unmarshal` leaves in `monitors` and whether it returned an error. -/
structure Lib where
  parseIP : String → Bool
  jsonUnmarshal : String → List KsVSMonitorAttributes × Bool

/-- The cluster client: the two cluster-wide list calls and the per-namespace
pod list call with its label selector. -/
structure Clientset where
  listIngresses : Except String (List Ingress)
  listServices : Except String (List Service)
  listPods : String → String → Except String (List Pod)

/-! ## `getKubernetesState` -/

/-- Go map read `ingress.ObjectMeta.Annotations[key]` with its `ok` flag. -/
def annotationOf (ingress : Ingress) (key : String) : Option String :=
  ingress.Annotations.lookup key

/-- Go zero value of `KsVSMonitorAttributes`. -/
def zeroMonitor : KsVSMonitorAttributes :=
  { Interval := 0, Send := "", Receive := "", Timeout := 0, Type_ := "" }

/-- Go zero value of `KsVirtualServer` (`var vs KsVirtualServer`). -/
def zeroVS : KsVirtualServer :=
  { Name := "", Namespace := "", IP := "", Port := 0, ClientSSL := "", ServerSSL := "",
    Redirect := false, DefPersist := "", FBPersist := "", LBMode := "", IRules := [],
    Members := [], Monitor := zeroMonitor }

/-- Lines 214-232: name, namespace and the `ip` annotation. -/
def setBasic (lib : Lib) (ingress : Ingress) (vs : KsVirtualServer) : KsVirtualServer :=
  let vs := { vs with Name := ingress.Name, Namespace := ingress.Namespace }
  match annotationOf ingress "virtual-server.f5.com/ip" with
  | some value => if lib.parseIP value then { vs with IP := value } else vs
  | none => vs

/-- Lines 234-255: client SSL profile, redirect flag and port. -/
def setTLS (ingress : Ingress) (vs : KsVirtualServer) : KsVirtualServer :=
  match ingress.TLS with
  | tls0 :: _ =>
    let vs := { vs with ClientSSL := tls0.SecretName, Redirect := true }
    let vs :=
      match annotationOf ingress "virtual-server.f5.com/https-port" with
      | some value => { vs with Port := toInt32 (ParseInt value 32).1 }
      | none => { vs with Port := 443 }
    match annotationOf ingress "ingress.kubernetes.io/ssl-redirect" with
    | some value => if value = "false" then { vs with Redirect := false } else vs
    | none => vs
  | [] =>
    match annotationOf ingress "virtual-server.f5.com/http-port" with
    | some value => { vs with Port := toInt32 (ParseInt value 32).1 }
    | none => { vs with Port := 80 }

/-- Lines 257-265: the `health` annotation.  The decoder's error is only
logged; `monitors[0]` is then read whatever the decoder returned, and panics
on an empty slice. -/
def setHealth (lib : Lib) (ingress : Ingress) (vs : KsVirtualServer) :
    Except Failure KsVirtualServer :=
  match annotationOf ingress "virtual-server.f5.com/health" with
  | some value =>
    match (lib.jsonUnmarshal value).1 with
    | m0 :: _ => Except.ok { vs with Monitor := m0 }
    | [] => Except.error (Failure.panic "index out of range [0] with length 0")
  | none => Except.ok vs

/-- Lines 267-276: the `serverssl` annotation and the monitor type default. -/
def setServerSSL (ingress : Ingress) (vs : KsVirtualServer) : KsVirtualServer :=
  let vs :=
    match annotationOf ingress "virtual-server.f5.com/serverssl" with
    | some value =>
      let vs := { vs with ServerSSL := value }
      if vs.Monitor.Type_ = "" then { vs with Monitor := { vs.Monitor with Type_ := "https" } }
      else vs
    | none => vs
  if vs.Monitor.Type_ = "" then { vs with Monitor := { vs.Monitor with Type_ := "http" } }
  else vs

/-- Lines 278-295: iRules, balancing mode and persistence profiles. -/
def setOptions (ingress : Ingress) (vs : KsVirtualServer) : KsVirtualServer :=
  let vs :=
    match annotationOf ingress "virtual-server.f5.com/rules" with
    | some value => { vs with IRules := vs.IRules ++ stringsSplit value }
    | none => vs
  let vs :=
    match annotationOf ingress "virtual-server.f5.com/balance" with
    | some value => { vs with LBMode := value }
    | none => vs
  let vs :=
    match annotationOf ingress "virtual-server.f5.com/defaultPersist" with
    | some value => { vs with DefPersist := value }
    | none => vs
  match annotationOf ingress "virtual-server.f5.com/fallbackPersist" with
  | some value => { vs with FBPersist := value }
  | none => vs

/-- Lines 212-295: the annotation-driven part of one loop iteration. -/
def decodeIngress (lib : Lib) (ingress : Ingress) : Except Failure KsVirtualServer :=
  match setHealth lib ingress (setTLS ingress (setBasic lib ingress zeroVS)) with
  | Except.ok vs => Except.ok (setOptions ingress (setServerSSL ingress vs))
  | Except.error f => Except.error f

/-- Lines 301-307: the search loop over `services.Items`.  Each iteration
reads `ingress.Spec.Backend.ServiceName`, a nil dereference when the Ingress
has no default backend.  `none` is the "Not found" outcome. -/
def findService (backend : Option IngressBackend) (namespace_ : String) :
    List Service → Except Failure (Option Service)
  | [] => Except.ok none
  | service :: rest =>
    match backend with
    | none => Except.error (Failure.panic "nil pointer dereference")
    | some b =>
      if service.Name = b.ServiceName ∧ service.Namespace = namespace_ then
        Except.ok (some service)
      else findService backend namespace_ rest

/-- Lines 325-347: the loop over `pods.Items`, appending one member per
Running pod to `members`. -/
def appendMembers (backend : Option IngressBackend) :
    List Pod → List KsVSMember → Except Failure (List KsVSMember)
  | [], members => Except.ok members
  | pod :: rest, members =>
    if pod.Phase = "Running" then
      match backend with
      | none => Except.error (Failure.panic "nil pointer dereference")
      | some b =>
        appendMembers backend rest
          (members ++ [{ Name := pod.Name, Port := toInt32 b.ServicePort.IntValue,
                         IP := pod.PodIP }])
    else appendMembers backend rest members

/-- Lines 321-354: list the pods selected by the service and attach the
running ones; a failed list call leaves the members untouched. -/
def attachMembers (clientset : Clientset) (ingress : Ingress) (service : Service)
    (vs : KsVirtualServer) : Except Failure KsVirtualServer :=
  match clientset.listPods vs.Namespace (labelsSetString service.Selector) with
  | Except.ok pods =>
    match appendMembers ingress.Backend pods vs.Members with
    | Except.ok members => Except.ok { vs with Members := members }
    | Except.error f => Except.error f
  | Except.error _ => Except.ok vs

/-- One iteration of the loop over `ingresses.Items` (lines 208-366):
`none` is the `continue` of a skipped Ingress, `some vs` the appended
virtual server. -/
def processIngress (lib : Lib) (clientset : Clientset) (services : List Service)
    (ingress : Ingress) : Except Failure (Option KsVirtualServer) :=
  match decodeIngress lib ingress with
  | Except.error f => Except.error f
  | Except.ok vs =>
    match findService ingress.Backend vs.Namespace services with
    | Except.error f => Except.error f
    | Except.ok none => Except.ok none
    | Except.ok (some service) =>
      match attachMembers clientset ingress service vs with
      | Except.ok vs => Except.ok (some vs)
      | Except.error f => Except.error f

/-- The loop over `ingresses.Items`, with `ks` the state built so far. -/
def ingressLoop (lib : Lib) (clientset : Clientset) (services : List Service) :
    List Ingress → KubernetesState → Except Failure KubernetesState
  | [], ks => Except.ok ks
  | ingress :: rest, ks =>
    match processIngress lib clientset services ingress with
    | Except.error f => Except.error f
    | Except.ok none => ingressLoop lib clientset services rest ks
    | Except.ok (some vs) => ingressLoop lib clientset services rest (ks ++ [vs])

/-- Go `getKubernetesState` (lines 190-369). -/
def getKubernetesState (lib : Lib) (clientset : Clientset) : Except Failure KubernetesState :=
  match clientset.listIngresses with
  | Except.error e => Except.error (Failure.err e)
  | Except.ok ingresses =>
    match clientset.listServices with
    | Except.error e => Except.error (Failure.err e)
    | Except.ok services => ingressLoop lib clientset services ingresses []

/-! ## A cluster client over a fixed snapshot -/

/-- The requirements of a label-selector string as the Kubernetes API server
reads `ListOptions.LabelSelector`: the empty string has none (the selector
"defaults to everything"), otherwise one `key=value` equality requirement per
comma-separated part. -/
def selectorRequirements (selector : String) : List String :=
  if selector = "" then [] else stringsSplit selector

/-- Whether a pod's labels satisfy every requirement of the selector. -/
def podMatches (selector : String) (pod : Pod) : Bool :=
  (selectorRequirements selector).all
    (fun r => pod.Labels.any (fun kv => decide (kv.1 ++ "=" ++ kv.2 = r)))

/-- The cluster client answering from a snapshot of ingresses, services and
pods; the pod list is restricted to the namespace and the label selector. -/
def snapshotClient (ingresses : List Ingress) (services : List Service) (pods : List Pod) :
    Clientset :=
  { listIngresses := Except.ok ingresses
    listServices := Except.ok services
    listPods := fun namespace_ selector =>
      Except.ok (pods.filter (fun p => decide (p.Namespace = namespace_) && podMatches selector p)) }

/-! ## `buildCurrentLTMState` -/

/-- The fields of `bigip.Pool` the controller reads. -/
structure Pool where
  Name : String
  Partition : String
  FullPath : String
deriving DecidableEq, Repr

/-- The fields of `bigip.VirtualServer` relevant here. -/
structure VirtualServer where
  Name : String
  Partition : String
deriving DecidableEq, Repr

/-- The fields of `bigip.Monitor` relevant here. -/
structure Monitor where
  Name : String
  Partition : String
deriving DecidableEq, Repr

/-- Go `LTMState`. -/
structure LTMState where
  Virtuals : List VirtualServer
  Pools : List Pool
  Monitors : List Monitor
deriving DecidableEq, Repr

/-- The process environment and the ADC client as `buildCurrentLTMState`
uses them: `os.Getenv`, `bigip.NewTokenSession(host, user, password, ..)`
(its error, if any) and the result of `f5.Pools()` on that session. -/
structure F5Env where
  getenv : String → String
  newTokenSession : String → String → String → Option String
  pools : Except String (List Pool)

/-- Lines 147-153: keep the pools of the configured partition. -/
def appendPools (partition : String) : List Pool → LTMState → LTMState
  | [], cs => cs
  | pool :: rest, cs =>
    if pool.Partition = partition then
      appendPools partition rest { cs with Pools := cs.Pools ++ [pool] }
    else appendPools partition rest cs

/-- Go `buildCurrentLTMState` (lines 113-156); `partition` is
`globalConfig.Partition`. -/
def buildCurrentLTMState (env : F5Env) (partition : String) : Except String LTMState :=
  let cs : LTMState := { Virtuals := [], Pools := [], Monitors := [] }
  let f5_user := env.getenv "F5_USER"
  if f5_user = "" then Except.error "F5_USER environment variable must be set"
  else
    let f5_password := env.getenv "F5_PASSWORD"
    if f5_password = "" then Except.error "F5_PASSWORD environment variable must be set"
    else
      let f5_host := env.getenv "F5_HOST"
      if f5_host = "" then Except.error "F5_HOST environment variable must be set"
      else
        match env.newTokenSession f5_host f5_user f5_password with
        | some e => Except.error e
        | none =>
          match env.pools with
          | Except.error e => Except.error e
          | Except.ok pools => Except.ok (appendPools partition pools cs)

/-! ## Specification-side vocabulary -/

/-- An Ingress has a matching Service when some Service of the list has the
Ingress's namespace and the service name of its backend. -/
def hasMatchingService (services : List Service) (ingress : Ingress) : Bool :=
  match ingress.Backend with
  | none => false
  | some b =>
    services.any (fun s => decide (s.Namespace = ingress.Namespace) && decide (s.Name = b.ServiceName))

/-- The member the loop body builds for a pod (lines 329-331). -/
def memberOf (b : IngressBackend) (pod : Pod) : KsVSMember :=
  { Name := pod.Name, Port := toInt32 b.ServicePort.IntValue, IP := pod.PodIP }

/-- Library results on the literals of the worked examples below:
`"10.0.0.1"` is an IP literal, `"not json"` is rejected by the JSON decoder
with the slice left nil.  No universally quantified statement depends on
it. -/
def sampleLib : Lib :=
  { parseIP := fun value => value == "10.0.0.1"
    jsonUnmarshal := fun _ => ([], true) }

/-- The members an emitted virtual server gets from the pod listing. -/
def membersFor (c : Clientset) (i : Ingress) (b : IngressBackend) (s : Service) :
    List KsVSMember :=
  match c.listPods i.Namespace (labelsSetString s.Selector) with
  | Except.ok pods => (pods.filter (fun p => decide (p.Phase = "Running"))).map (memberOf b)
  | Except.error _ => []

/-! ## Worked examples -/

/-- Backend of the demo Ingress: service `demo-svc`, port 8080. -/
def demoBackend : IngressBackend :=
  { ServiceName := "demo-svc", ServicePort := IntOrString.int 8080 }

/-- Plain HTTP Ingress `web/demo` without annotations. -/
def demoIngress : Ingress :=
  { Name := "demo", Namespace := "web", Annotations := [], TLS := [], Backend := some demoBackend }

/-- Ingress whose backend names a Service that does not exist. -/
def ghostIngress : Ingress :=
  { Name := "ghost", Namespace := "web", Annotations := [], TLS := [],
    Backend := some { ServiceName := "ghost-svc", ServicePort := IntOrString.int 80 } }

/-- TLS Ingress with redirect switched off. -/
def tlsIngress : Ingress :=
  { Name := "secure", Namespace := "web",
    Annotations := [("ingress.kubernetes.io/ssl-redirect", "false")],
    TLS := [{ Hosts := [], SecretName := "cert-a" }], Backend := some demoBackend }

/-- Service `web/demo-svc` selecting `app=demo`. -/
def demoService : Service :=
  { Name := "demo-svc", Namespace := "web", Selector := [("app", "demo")] }

/-- Service `web/demo-svc` with an empty selector. -/
def headlessService : Service :=
  { Name := "demo-svc", Namespace := "web", Selector := [] }

/-- Running pod `p1`. -/
def podP1 : Pod :=
  { Name := "p1", Namespace := "web", Labels := [("app", "demo")], Phase := "Running",
    PodIP := "10.0.0.1" }

/-- Running pod `p2`. -/
def podP2 : Pod :=
  { Name := "p2", Namespace := "web", Labels := [("app", "demo")], Phase := "Running",
    PodIP := "10.0.0.2" }

/-- Pending pod `p3`, not yet given an IP. -/
def podP3 : Pod :=
  { Name := "p3", Namespace := "web", Labels := [("app", "demo")], Phase := "Pending",
    PodIP := "" }

/-- Running pod of another workload in the same namespace. -/
def podOther : Pod :=
  { Name := "db-0", Namespace := "web", Labels := [("app", "db")], Phase := "Running",
    PodIP := "10.0.0.9" }

/-- Running pod whose status carries no pod IP. -/
def podNoIP : Pod :=
  { Name := "p4", Namespace := "web", Labels := [("app", "demo")], Phase := "Running",
    PodIP := "" }

/-- The demo Ingress with a malformed `health` annotation. -/
def badHealthIngress : Ingress :=
  { demoIngress with Annotations := [("virtual-server.f5.com/health", "not json")] }

/-- The demo Ingress with `http-port` set to `0`. -/
def zeroPortIngress : Ingress :=
  { demoIngress with Annotations := [("virtual-server.f5.com/http-port", "0")] }

/-- The demo Ingress with one TLS entry that names no secret. -/
def emptySecretIngress : Ingress :=
  { demoIngress with TLS := [{ Hosts := ["demo.example.com"], SecretName := "" }] }

/-- The demo Ingress with a symbolic backend port. -/
def namedPortIngress : Ingress :=
  { demoIngress with
    Backend := some { ServiceName := "demo-svc", ServicePort := IntOrString.str "http" } }

/-- The demo Ingress with an empty `serverssl` annotation. -/
def emptyServerSSLIngress : Ingress :=
  { demoIngress with Annotations := [("virtual-server.f5.com/serverssl", "")] }

/-- A cluster client whose pod listing always fails. -/
def failingPodsClient (ingresses : List Ingress) (services : List Service) : Clientset :=
  { listIngresses := Except.ok ingresses
    listServices := Except.ok services
    listPods := fun _ _ => Except.error "connection refused" }

/-- An ADC environment with credentials set, a working session and the given
pool inventory. -/
def demoEnv (inventory : List Pool) : F5Env :=
  { getenv := fun _ => "set"
    newTokenSession := fun _ _ _ => none
    pools := Except.ok inventory }

/-- The state expected from the demo, ghost and TLS Ingresses when the pod
listing fails. -/
def demoStateNoMembers : KubernetesState :=
  [ { zeroVS with Name := "demo", Namespace := "web", Port := 80,
                  Monitor := { zeroMonitor with Type_ := "http" } },
    { zeroVS with Name := "secure", Namespace := "web", Port := 443, ClientSSL := "cert-a",
                  Monitor := { zeroMonitor with Type_ := "http" } } ]

/-- The state expected from the demo Ingress with pods `p1` and `p2`
Running. -/
def demoStateTwoMembers : KubernetesState :=
  [ { zeroVS with Name := "demo", Namespace := "web", Port := 80,
                  Monitor := { zeroMonitor with Type_ := "http" },
                  Members := [ { Name := "p1", Port := 8080, IP := "10.0.0.1" },
                               { Name := "p2", Port := 8080, IP := "10.0.0.2" } ] } ]

/-- A pool inventory spanning two partitions. -/
def demoInventory : List Pool :=
  [ { Name := "web_demo", Partition := "k8s-auto-ny2", FullPath := "/k8s-auto-ny2/web_demo" },
    { Name := "legacy", Partition := "Common", FullPath := "/Common/legacy" },
    { Name := "web_secure", Partition := "k8s-auto-ny2",
      FullPath := "/k8s-auto-ny2/web_secure" } ]

/-- The state the code returns for `zeroPortIngress`. -/
def zeroPortState : KubernetesState :=
  [ { zeroVS with Name := "demo", Namespace := "web", Port := 0,
                  Monitor := { zeroMonitor with Type_ := "http" } } ]

/-- The state the code returns for `emptySecretIngress`. -/
def emptySecretState : KubernetesState :=
  [ { zeroVS with Name := "demo", Namespace := "web", Port := 443, Redirect := true,
                  ClientSSL := "", Monitor := { zeroMonitor with Type_ := "http" } } ]

/-- The state the code returns for `namedPortIngress` with pod `p4`. -/
def namedPortState : KubernetesState :=
  [ { zeroVS with Name := "demo", Namespace := "web", Port := 80,
                  Monitor := { zeroMonitor with Type_ := "http" },
                  Members := [ { Name := "p4", Port := 0, IP := "" } ] } ]

/-- The state the code returns for `emptyServerSSLIngress`. -/
def emptyServerSSLState : KubernetesState :=
  [ { zeroVS with Name := "demo", Namespace := "web", Port := 80, ServerSSL := "",
                  Monitor := { zeroMonitor with Type_ := "https" } } ]

/-- The state the code returns for the demo Ingress over `headlessService`
with pods `p1` and `db-0` in the namespace. -/
def headlessState : KubernetesState :=
  [ { zeroVS with Name := "demo", Namespace := "web", Port := 80,
                  Monitor := { zeroMonitor with Type_ := "http" },
                  Members := [ { Name := "p1", Port := 8080, IP := "10.0.0.1" },
                               { Name := "db-0", Port := 8080, IP := "10.0.0.9" } ] } ]

/-- The demo Ingress with `http-port` set to `8080`. -/
def customPortIngress : Ingress :=
  { demoIngress with Annotations := [("virtual-server.f5.com/http-port", "8080")] }

/-- The state the code returns for `customPortIngress`. -/
def customPortState : KubernetesState :=
  [ { zeroVS with Name := "demo", Namespace := "web", Port := 8080,
                  Monitor := { zeroMonitor with Type_ := "http" } } ]

/-- The demo Ingress with `serverssl` set to `srv-profile`. -/
def serverSSLIngress : Ingress :=
  { demoIngress with Annotations := [("virtual-server.f5.com/serverssl", "srv-profile")] }

/-- The state the code returns for `serverSSLIngress` and the demo Ingress. -/
def serverSSLState : KubernetesState :=
  [ { zeroVS with Name := "demo", Namespace := "web", Port := 80, ServerSSL := "srv-profile",
                  Monitor := { zeroMonitor with Type_ := "https" } },
    { zeroVS with Name := "demo", Namespace := "web", Port := 80,
                  Monitor := { zeroMonitor with Type_ := "http" } } ]

/-- TLS Ingress with secret `cert-a` and no annotations. -/
def tlsRedirectIngress : Ingress :=
  { demoIngress with Name := "shop", TLS := [{ Hosts := [], SecretName := "cert-a" }] }

/-- The state the code returns for `tlsRedirectIngress` and the demo
Ingress. -/
def tlsRedirectState : KubernetesState :=
  [ { zeroVS with Name := "shop", Namespace := "web", Port := 443, ClientSSL := "cert-a",
                  Redirect := true, Monitor := { zeroMonitor with Type_ := "http" } },
    { zeroVS with Name := "demo", Namespace := "web", Port := 80,
                  Monitor := { zeroMonitor with Type_ := "http" } } ]

/-! ## Shared lemmas -/

theorem ingressLoop_acc (lib : Lib) (c : Clientset) (svcs : List Service)
    (ings : List Ingress) (ks : KubernetesState) :
    ingressLoop lib c svcs ings ks =
      (ingressLoop lib c svcs ings []).map (fun out => ks ++ out) := by
  induction ings generalizing ks with
  | nil => simp [ingressLoop, Except.map]
  | cons i rest ih =>
    simp only [ingressLoop]
    cases h : processIngress lib c svcs i with
    | error f => simp [Except.map]
    | ok r =>
      cases r with
      | none => simpa using ih ks
      | some v =>
        simp only
        rw [ih (ks ++ [v]), ih ([] ++ [v])]
        cases ingressLoop lib c svcs rest [] <;> simp [Except.map]

/-- What `findService` returns, when it returns: the first Service of the
list with the backend's service name and the given namespace. -/
theorem findService_ok (backend : Option IngressBackend) (ns : String) (svcs : List Service)
    (r : Option Service) :
    findService backend ns svcs = Except.ok r →
    r = match backend with
        | none => none
        | some b => svcs.find? (fun s => decide (s.Name = b.ServiceName ∧ s.Namespace = ns)) := by
  intro h
  induction svcs with
  | nil =>
    simp only [findService, Except.ok.injEq] at h
    subst h
    cases backend <;> rfl
  | cons s rest ih =>
    cases backend with
    | none => simp [findService] at h
    | some b =>
      simp only [findService] at h
      by_cases hm : s.Name = b.ServiceName ∧ s.Namespace = ns
      · simp only [hm, and_self, if_true, Except.ok.injEq] at h
        subst h
        simp [List.find?, hm]
      · rw [if_neg hm] at h
        have := ih h
        simp only at this
        simp [List.find?, hm, this]

theorem findService_isSome (backend : Option IngressBackend) (ns : String)
    (svcs : List Service) (r : Option Service) :
    findService backend ns svcs = Except.ok r →
    r.isSome = match backend with
      | none => false
      | some b => svcs.any (fun s => decide (s.Namespace = ns) && decide (s.Name = b.ServiceName)) := by
  intro h
  rw [findService_ok backend ns svcs r h]
  cases backend with
  | none => rfl
  | some b =>
    show (svcs.find? _).isSome = svcs.any _
    rw [Bool.eq_iff_iff, List.find?_isSome, List.any_eq_true]
    simp only [decide_eq_true_eq, Bool.and_eq_true]
    constructor
    · rintro ⟨x, hx, h1, h2⟩
      exact ⟨x, hx, h2, h1⟩
    · rintro ⟨x, hx, h1, h2⟩
      exact ⟨x, hx, h2, h1⟩

/-- The fields `setOptions` leaves alone. -/
theorem setOptions_keeps (i : Ingress) (vs : KsVirtualServer) :
    (setOptions i vs).Name = vs.Name ∧ (setOptions i vs).Namespace = vs.Namespace ∧
    (setOptions i vs).Port = vs.Port ∧ (setOptions i vs).ClientSSL = vs.ClientSSL ∧
    (setOptions i vs).ServerSSL = vs.ServerSSL ∧ (setOptions i vs).Redirect = vs.Redirect ∧
    (setOptions i vs).Members = vs.Members ∧ (setOptions i vs).Monitor = vs.Monitor := by
  unfold setOptions
  cases annotationOf i "virtual-server.f5.com/rules" <;>
  cases annotationOf i "virtual-server.f5.com/balance" <;>
  cases annotationOf i "virtual-server.f5.com/defaultPersist" <;>
  cases annotationOf i "virtual-server.f5.com/fallbackPersist" <;>
  simp

/-- The fields `setServerSSL` leaves alone. -/
theorem setServerSSL_keeps (i : Ingress) (vs : KsVirtualServer) :
    (setServerSSL i vs).Name = vs.Name ∧ (setServerSSL i vs).Namespace = vs.Namespace ∧
    (setServerSSL i vs).Port = vs.Port ∧ (setServerSSL i vs).ClientSSL = vs.ClientSSL ∧
    (setServerSSL i vs).Redirect = vs.Redirect ∧ (setServerSSL i vs).Members = vs.Members := by
  unfold setServerSSL
  cases annotationOf i "virtual-server.f5.com/serverssl" <;> simp only <;>
  (repeat' split) <;> simp

/-- The fields `setHealth` leaves alone; without a `health` annotation it
changes nothing. -/
theorem setHealth_keeps (lib : Lib) (i : Ingress) (vs h : KsVirtualServer)
    (hh : setHealth lib i vs = Except.ok h) :
    h.Name = vs.Name ∧ h.Namespace = vs.Namespace ∧ h.Port = vs.Port ∧
    h.ClientSSL = vs.ClientSSL ∧ h.ServerSSL = vs.ServerSSL ∧ h.Redirect = vs.Redirect ∧
    h.Members = vs.Members ∧
    (annotationOf i "virtual-server.f5.com/health" = none → h = vs) := by
  unfold setHealth at hh
  cases ha : annotationOf i "virtual-server.f5.com/health" with
  | none =>
    simp only [ha, Except.ok.injEq] at hh
    subst hh
    simp
  | some value =>
    simp only [ha] at hh
    cases hm : (lib.jsonUnmarshal value).1 with
    | nil => simp [hm] at hh
    | cons m0 ms =>
      simp only [hm, Except.ok.injEq] at hh
      subst hh
      simp

/-- The fields `setTLS` leaves alone. -/
theorem setTLS_keeps (i : Ingress) (vs : KsVirtualServer) :
    (setTLS i vs).Name = vs.Name ∧ (setTLS i vs).Namespace = vs.Namespace ∧
    (setTLS i vs).ServerSSL = vs.ServerSSL ∧ (setTLS i vs).Members = vs.Members ∧
    (setTLS i vs).Monitor = vs.Monitor := by
  unfold setTLS
  cases i.TLS <;>
  cases annotationOf i "virtual-server.f5.com/https-port" <;>
  cases annotationOf i "ingress.kubernetes.io/ssl-redirect" <;>
  cases annotationOf i "virtual-server.f5.com/http-port" <;>
  simp only <;> (repeat' split) <;> simp

/-- What `setBasic` does to the fields other than `IP`. -/
theorem setBasic_keeps (lib : Lib) (i : Ingress) (vs : KsVirtualServer) :
    (setBasic lib i vs).Name = i.Name ∧ (setBasic lib i vs).Namespace = i.Namespace ∧
    (setBasic lib i vs).Port = vs.Port ∧ (setBasic lib i vs).ClientSSL = vs.ClientSSL ∧
    (setBasic lib i vs).ServerSSL = vs.ServerSSL ∧ (setBasic lib i vs).Redirect = vs.Redirect ∧
    (setBasic lib i vs).Members = vs.Members ∧ (setBasic lib i vs).Monitor = vs.Monitor := by
  unfold setBasic
  cases annotationOf i "virtual-server.f5.com/ip" <;> simp only <;> (repeat' split) <;> simp

/-- Port, client SSL profile and redirect flag after `setTLS` depend only on
the Ingress when the incoming profile and flag are still zero. -/
theorem setTLS_sets (i : Ingress) (vs : KsVirtualServer)
    (hc : vs.ClientSSL = "") (hr : vs.Redirect = false) :
    (setTLS i vs).Port = (setTLS i zeroVS).Port ∧
    (setTLS i vs).ClientSSL = (setTLS i zeroVS).ClientSSL ∧
    (setTLS i vs).Redirect = (setTLS i zeroVS).Redirect := by
  unfold setTLS
  cases i.TLS <;>
  cases annotationOf i "virtual-server.f5.com/https-port" <;>
  cases annotationOf i "ingress.kubernetes.io/ssl-redirect" <;>
  cases annotationOf i "virtual-server.f5.com/http-port" <;>
  simp only <;> (repeat' split) <;> simp [hc, hr, zeroVS]

/-- The server SSL profile after `setServerSSL` depends only on the Ingress
when the incoming profile is still zero. -/
theorem setServerSSL_profile (i : Ingress) (vs : KsVirtualServer) (hs : vs.ServerSSL = "") :
    (setServerSSL i vs).ServerSSL = (setServerSSL i zeroVS).ServerSSL := by
  unfold setServerSSL
  cases annotationOf i "virtual-server.f5.com/serverssl" <;> simp only <;>
  (repeat' split) <;> simp [hs, zeroVS]

/-- Server SSL profile and monitor after `setServerSSL` depend only on the
Ingress when the incoming profile and monitor are still zero. -/
theorem setServerSSL_sets (i : Ingress) (vs : KsVirtualServer)
    (hs : vs.ServerSSL = "") (hm : vs.Monitor = zeroMonitor) :
    (setServerSSL i vs).ServerSSL = (setServerSSL i zeroVS).ServerSSL ∧
    (setServerSSL i vs).Monitor = (setServerSSL i zeroVS).Monitor := by
  unfold setServerSSL
  cases annotationOf i "virtual-server.f5.com/serverssl" <;>
  simp [hs, hm, zeroVS, zeroMonitor]

/-- The virtual server `decodeIngress` returns, field by field. -/
theorem decodeIngress_ok (lib : Lib) (i : Ingress) (d : KsVirtualServer)
    (h : decodeIngress lib i = Except.ok d) :
    d.Name = i.Name ∧ d.Namespace = i.Namespace ∧ d.Members = [] ∧
    d.Port = (setTLS i zeroVS).Port ∧ d.ClientSSL = (setTLS i zeroVS).ClientSSL ∧
    d.Redirect = (setTLS i zeroVS).Redirect ∧
    d.ServerSSL = (setServerSSL i zeroVS).ServerSSL ∧
    (annotationOf i "virtual-server.f5.com/health" = none →
      d.Monitor = (setServerSSL i zeroVS).Monitor) := by
  unfold decodeIngress at h
  cases hh : setHealth lib i (setTLS i (setBasic lib i zeroVS)) with
  | error f => simp [hh] at h
  | ok hv =>
    simp only [hh, Except.ok.injEq] at h
    subst h
    obtain ⟨o1, o2, o3, o4, o5, o6, o7, o8⟩ := setOptions_keeps i (setServerSSL i hv)
    obtain ⟨s1, s2, s3, s4, s5, s6⟩ := setServerSSL_keeps i hv
    obtain ⟨h1, h2, h3, h4, h5, h6, h7, h8⟩ :=
      setHealth_keeps lib i (setTLS i (setBasic lib i zeroVS)) hv hh
    obtain ⟨t1, t2, t3, t4, t5⟩ := setTLS_keeps i (setBasic lib i zeroVS)
    obtain ⟨b1, b2, b3, b4, b5, b6, b7, b8⟩ := setBasic_keeps lib i zeroVS
    obtain ⟨u1, u2, u3⟩ := setTLS_sets i (setBasic lib i zeroVS) (by rw [b4]; rfl) (by rw [b6]; rfl)
    refine ⟨?_, ?_, ?_, ?_, ?_, ?_, ?_, ?_⟩
    · rw [o1, s1, h1, t1, b1]
    · rw [o2, s2, h2, t2, b2]
    · rw [o7, s6, h7, t4, b7]; rfl
    · rw [o3, s3, h3, u1]
    · rw [o4, s4, h4, u2]
    · rw [o6, s5, h6, u3]
    · rw [o5]
      exact setServerSSL_profile i hv (by rw [h5, t3, b5]; rfl)
    · intro hn
      rw [o8, h8 hn]
      exact (setServerSSL_sets i _ (by rw [t3, b5]; rfl) (by rw [t5, b8]; rfl)).2

/-- With a backend, the pod loop appends one member per Running pod, in
order, and never fails. -/
theorem appendMembers_some (b : IngressBackend) (pods : List Pod) (acc : List KsVSMember) :
    appendMembers (some b) pods acc =
      Except.ok (acc ++ (pods.filter (fun p => decide (p.Phase = "Running"))).map (memberOf b)) := by
  induction pods generalizing acc with
  | nil => simp [appendMembers]
  | cons p rest ih =>
    unfold appendMembers
    by_cases hp : p.Phase = "Running"
    · simp [hp, ih, List.filter_cons, memberOf]
    · simp [hp, ih, List.filter_cons]

/-- An iteration that emits a virtual server: the Ingress has a backend, the
service search found a Service, and the virtual server is the decoded one
with the members of the pod listing. -/
theorem processIngress_some (lib : Lib) (c : Clientset) (svcs : List Service) (i : Ingress)
    (v : KsVirtualServer) (h : processIngress lib c svcs i = Except.ok (some v)) :
    ∃ d b s, decodeIngress lib i = Except.ok d ∧ i.Backend = some b ∧
      findService i.Backend i.Namespace svcs = Except.ok (some s) ∧
      v = { d with Members := membersFor c i b s } := by
  unfold processIngress at h
  cases hd : decodeIngress lib i with
  | error f => simp [hd] at h
  | ok d =>
    have hns : d.Namespace = i.Namespace := (decodeIngress_ok lib i d hd).2.1
    have hmem : d.Members = [] := (decodeIngress_ok lib i d hd).2.2.1
    simp only [hd, hns] at h
    cases hf : findService i.Backend i.Namespace svcs with
    | error f => simp [hf] at h
    | ok r =>
      cases r with
      | none => simp [hf] at h
      | some s =>
        simp only [hf] at h
        cases hb : i.Backend with
        | none =>
          have := findService_isSome i.Backend i.Namespace svcs (some s) hf
          simp [hb] at this
        | some b =>
          refine ⟨d, b, s, rfl, rfl, rfl, ?_⟩
          unfold attachMembers at h
          unfold membersFor
          rw [hns] at h
          cases hl : c.listPods i.Namespace (labelsSetString s.Selector) with
          | error e =>
            simp only [hl, Except.ok.injEq, Option.some.injEq] at h
            subst h
            cases d
            simp_all
          | ok pods =>
            simp only [hl, hb, appendMembers_some, hmem, List.nil_append, Except.ok.injEq,
              Option.some.injEq] at h
            subst h
            cases d
            simp_all

/-- An iteration that returns emits a virtual server exactly when the
Ingress has a matching Service. -/
theorem processIngress_isSome (lib : Lib) (c : Clientset) (svcs : List Service) (i : Ingress)
    (r : Option KsVirtualServer) (h : processIngress lib c svcs i = Except.ok r) :
    r.isSome = hasMatchingService svcs i := by
  unfold processIngress at h
  cases hd : decodeIngress lib i with
  | error f => simp [hd] at h
  | ok d =>
    have hns : d.Namespace = i.Namespace := (decodeIngress_ok lib i d hd).2.1
    simp only [hd, hns] at h
    cases hf : findService i.Backend i.Namespace svcs with
    | error f => simp [hf] at h
    | ok r0 =>
      have hsome := findService_isSome i.Backend i.Namespace svcs r0 hf
      unfold hasMatchingService
      rw [← hsome]
      cases r0 with
      | none =>
        simp only [hf, Except.ok.injEq] at h
        subst h
        rfl
      | some s =>
        simp only [hf] at h
        cases ha : attachMembers c i s d with
        | error f => simp [ha] at h
        | ok w =>
          simp only [ha, Except.ok.injEq] at h
          subst h
          rfl

/-- A successful loop pairs off its output, in order, with the Ingresses that
have a matching Service. -/
theorem ingressLoop_forall₂ (lib : Lib) (c : Clientset) (svcs : List Service)
    (ings : List Ingress) (ks : KubernetesState)
    (h : ingressLoop lib c svcs ings [] = Except.ok ks) :
    List.Forall₂ (fun i v => processIngress lib c svcs i = Except.ok (some v))
      (ings.filter (hasMatchingService svcs)) ks := by
  induction ings generalizing ks with
  | nil =>
    simp only [ingressLoop, Except.ok.injEq] at h
    subst h
    exact List.Forall₂.nil
  | cons i rest ih =>
    simp only [ingressLoop] at h
    cases hp : processIngress lib c svcs i with
    | error f => simp [hp] at h
    | ok r =>
      have hs := processIngress_isSome lib c svcs i r hp
      cases r with
      | none =>
        simp only [hp] at h
        have hs' : hasMatchingService svcs i = false := by rw [← hs]; rfl
        rw [List.filter_cons, hs']
        exact ih ks h
      | some v =>
        simp only [hp] at h
        rw [ingressLoop_acc] at h
        have hs' : hasMatchingService svcs i = true := by rw [← hs]; rfl
        cases hr : ingressLoop lib c svcs rest [] with
        | error f => simp [hr, Except.map] at h
        | ok out =>
          simp only [hr, Except.map, Except.ok.injEq, List.nil_append, List.singleton_append] at h
          subst h
          rw [List.filter_cons, hs']
          exact List.Forall₂.cons hp (ih out hr)

/-- The state `getKubernetesState` returns pairs off, in order, with the
Ingresses that have a matching Service. -/
theorem getKubernetesState_forall₂ (lib : Lib) (c : Clientset) (ings : List Ingress)
    (svcs : List Service) (ks : KubernetesState)
    (hi : c.listIngresses = Except.ok ings) (hs : c.listServices = Except.ok svcs)
    (h : getKubernetesState lib c = Except.ok ks) :
    List.Forall₂ (fun i v => processIngress lib c svcs i = Except.ok (some v))
      (ings.filter (hasMatchingService svcs)) ks := by
  unfold getKubernetesState at h
  simp only [hi, hs] at h
  exact ingressLoop_forall₂ lib c svcs ings ks h


/-- Every failure of a loop iteration is a runtime panic. -/
theorem processIngress_error (lib : Lib) (c : Clientset) (svcs : List Service) (i : Ingress)
    (f : Failure) (h : processIngress lib c svcs i = Except.error f) :
    ∃ msg, f = Failure.panic msg := by
  unfold processIngress at h
  cases hd : decodeIngress lib i with
  | error f0 =>
    simp only [hd, Except.error.injEq] at h
    subst h
    unfold decodeIngress at hd
    cases hh : setHealth lib i (setTLS i (setBasic lib i zeroVS)) with
    | ok hv => simp [hh] at hd
    | error f1 =>
      simp only [hh, Except.error.injEq] at hd
      subst hd
      unfold setHealth at hh
      cases ha : annotationOf i "virtual-server.f5.com/health" with
      | none => simp [ha] at hh
      | some value =>
        simp only [ha] at hh
        cases hm : (lib.jsonUnmarshal value).1 with
        | cons m0 ms => simp [hm] at hh
        | nil =>
          simp only [hm, Except.error.injEq] at hh
          exact ⟨_, hh.symm⟩
  | ok d =>
    simp only [hd] at h
    cases hf : findService i.Backend d.Namespace svcs with
    | error f0 =>
      simp only [hf, Except.error.injEq] at h
      subst h
      cases hb : i.Backend with
      | none =>
        rw [hb] at hf
        cases svcs with
        | nil => simp [findService] at hf
        | cons s rest =>
          simp only [findService, Except.error.injEq] at hf
          exact ⟨_, hf.symm⟩
      | some b =>
        exfalso
        rw [hb] at hf
        induction svcs with
        | nil => simp [findService] at hf
        | cons s rest ih =>
          simp only [findService] at hf
          split at hf
          · simp at hf
          · exact ih hf
    | ok r =>
      cases r with
      | none => simp [hf] at h
      | some s =>
        simp only [hf] at h
        cases hb : i.Backend with
        | none =>
          have := findService_isSome i.Backend d.Namespace svcs (some s) hf
          simp [hb] at this
        | some b =>
          exfalso
          unfold attachMembers at h
          cases hl : c.listPods d.Namespace (labelsSetString s.Selector) with
          | error e => simp [hl] at h
          | ok pods => simp [hl, hb, appendMembers_some] at h

/-- A loop over a list containing an Ingress whose iteration fails does not
return a state: it ends in a panic. -/
theorem ingressLoop_panics (lib : Lib) (c : Clientset) (svcs : List Service)
    (ings : List Ingress) (ks : KubernetesState) (i : Ingress) (f : Failure)
    (hmem : i ∈ ings) (hf : processIngress lib c svcs i = Except.error f) :
    ∃ msg, ingressLoop lib c svcs ings ks = Except.error (Failure.panic msg) := by
  induction ings generalizing ks with
  | nil => simp at hmem
  | cons j rest ih =>
    unfold ingressLoop
    cases hp : processIngress lib c svcs j with
    | error g =>
      obtain ⟨msg, rfl⟩ := processIngress_error lib c svcs j g hp
      exact ⟨msg, rfl⟩
    | ok r =>
      have hrest : i ∈ rest := by
        rcases List.mem_cons.mp hmem with rfl | h
        · rw [hf] at hp
          cases hp
        · exact h
      cases r with
      | none => exact ih ks hrest
      | some v => exact ih (ks ++ [v]) hrest

/-- Two lists paired off by a relation that forces `f v = g i` have equal
images. -/
theorem forall₂_map_eq {α β γ : Type} (R : α → β → Prop) (g : α → γ) (f : β → γ)
    (hR : ∀ a b, R a b → f b = g a) (l₁ : List α) (l₂ : List β)
    (h : List.Forall₂ R l₁ l₂) : l₂.map f = l₁.map g := by
  induction h with
  | nil => rfl
  | cons hab _ ih => simp [hR _ _ hab, ih]

/-- What `setTLS` gives an Ingress with a TLS entry. -/
theorem setTLS_tls (i : Ingress) (t : IngressTLS) (rest : List IngressTLS)
    (ht : i.TLS = t :: rest) :
    (setTLS i zeroVS).ClientSSL = t.SecretName ∧
    ((setTLS i zeroVS).Redirect = false ↔
      annotationOf i "ingress.kubernetes.io/ssl-redirect" = some "false") ∧
    (annotationOf i "virtual-server.f5.com/https-port" = none → (setTLS i zeroVS).Port = 443) ∧
    (∀ value, annotationOf i "virtual-server.f5.com/https-port" = some value →
      (setTLS i zeroVS).Port = toInt32 (ParseInt value 32).1) := by
  unfold setTLS
  rw [ht]
  cases annotationOf i "virtual-server.f5.com/https-port" <;>
  cases hr : annotationOf i "ingress.kubernetes.io/ssl-redirect" <;>
  simp only <;> (repeat' split) <;> simp_all

/-- What `setTLS` gives an Ingress without TLS entries. -/
theorem setTLS_plain (i : Ingress) (ht : i.TLS = []) :
    (setTLS i zeroVS).ClientSSL = "" ∧ (setTLS i zeroVS).Redirect = false ∧
    (annotationOf i "virtual-server.f5.com/http-port" = none → (setTLS i zeroVS).Port = 80) ∧
    (∀ value, annotationOf i "virtual-server.f5.com/http-port" = some value →
      (setTLS i zeroVS).Port = toInt32 (ParseInt value 32).1) := by
  unfold setTLS
  rw [ht]
  cases annotationOf i "virtual-server.f5.com/http-port" <;> simp [zeroVS]

/-- The pool loop appends the pools of the partition, in order. -/
theorem appendPools_eq (partition : String) (pools : List Pool) (cs : LTMState) :
    appendPools partition pools cs =
      { cs with Pools := cs.Pools ++ pools.filter (fun p => decide (p.Partition = partition)) } := by
  induction pools generalizing cs with
  | nil => simp [appendPools]
  | cons p rest ih =>
    unfold appendPools
    by_cases hp : p.Partition = partition
    · simp [hp, ih, List.filter_cons]
    · simp [hp, ih, List.filter_cons]

/-- What `setServerSSL` gives a virtual server whose monitor is still zero. -/
theorem setServerSSL_zero (i : Ingress) :
    (annotationOf i "virtual-server.f5.com/serverssl" = none →
      (setServerSSL i zeroVS).ServerSSL = "" ∧
      (setServerSSL i zeroVS).Monitor = { zeroMonitor with Type_ := "http" }) ∧
    (∀ value, annotationOf i "virtual-server.f5.com/serverssl" = some value →
      (setServerSSL i zeroVS).ServerSSL = value ∧
      (setServerSSL i zeroVS).Monitor = { zeroMonitor with Type_ := "https" }) := by
  unfold setServerSSL
  cases annotationOf i "virtual-server.f5.com/serverssl" <;> simp [zeroVS, zeroMonitor]

/-- Each element of the right list of a pairing has a partner in the left
list. -/
theorem forall₂_mem_right {α β : Type} (R : α → β → Prop) (l₁ : List α) (l₂ : List β)
    (h : List.Forall₂ R l₁ l₂) (b : β) (hb : b ∈ l₂) : ∃ a ∈ l₁, R a b := by
  induction h with
  | nil => simp at hb
  | cons hab _ ih =>
    rcases List.mem_cons.mp hb with rfl | hb
    · exact ⟨_, List.mem_cons_self _ _, hab⟩
    · obtain ⟨a, ha, hr⟩ := ih hb
      exact ⟨a, List.mem_cons_of_mem _ ha, hr⟩

/-! ## The claims -/

/-- C1 (defect in the code): when the `health` annotation of some Ingress is
not well-formed JSON, so that the decoder leaves the `monitors` slice empty,
`getKubernetesState` does not complete: reading `monitors[0]` panics and no
state is returned, whatever the rest of the snapshot holds. -/
theorem health_malformed_panics (lib : Lib) (c : Clientset) (ings : List Ingress)
    (svcs : List Service) (i : Ingress) (value : String)
    (hi : c.listIngresses = Except.ok ings) (hs : c.listServices = Except.ok svcs)
    (hmem : i ∈ ings)
    (ha : annotationOf i "virtual-server.f5.com/health" = some value)
    (hbad : (lib.jsonUnmarshal value).1 = []) :
    ∃ msg, getKubernetesState lib c = Except.error (Failure.panic msg) := by
  have hdec : decodeIngress lib i =
      Except.error (Failure.panic "index out of range [0] with length 0") := by
    simp [decodeIngress, setHealth, ha, hbad]
  have hproc : processIngress lib c svcs i =
      Except.error (Failure.panic "index out of range [0] with length 0") := by
    simp [processIngress, hdec]
  unfold getKubernetesState
  simp only [hi, hs]
  exact ingressLoop_panics lib c svcs ings [] i _ hmem hproc

/-- C1 at a concrete snapshot: Ingress `web/demo` with the annotation
`virtual-server.f5.com/health: "not json"` makes the run panic. -/
theorem health_malformed_panics_witness :
    annotationOf badHealthIngress "virtual-server.f5.com/health" = some "not json" ∧
    (sampleLib.jsonUnmarshal "not json").1 = [] ∧
    ∃ msg, getKubernetesState sampleLib
      (snapshotClient [demoIngress, badHealthIngress] [demoService] [podP1]) =
        Except.error (Failure.panic msg) :=
  ⟨by decide, by decide,
   health_malformed_panics sampleLib
     (snapshotClient [demoIngress, badHealthIngress] [demoService] [podP1])
     [demoIngress, badHealthIngress] [demoService] badHealthIngress "not json"
     rfl rfl (by decide) (by decide) (by decide)⟩

/-- C7: whenever `getKubernetesState` returns a state, the (namespace, name)
pairs of its virtual servers are, in the same order, those of exactly the
input Ingresses that have a matching Service; the pod listing (empty, or
failing) plays no part. -/
theorem emitted_keys_eq_matching_ingresses (lib : Lib) (c : Clientset)
    (ings : List Ingress) (svcs : List Service) (ks : KubernetesState)
    (hi : c.listIngresses = Except.ok ings) (hs : c.listServices = Except.ok svcs)
    (h : getKubernetesState lib c = Except.ok ks) :
    ks.map (fun v => (v.Namespace, v.Name)) =
      (ings.filter (hasMatchingService svcs)).map (fun i => (i.Namespace, i.Name)) := by
  refine forall₂_map_eq _ _ _ ?_ _ _ (getKubernetesState_forall₂ lib c ings svcs ks hi hs h)
  intro i v hp
  obtain ⟨d, b, s, hd, _, _, rfl⟩ := processIngress_some lib c svcs i v hp
  have hk := decodeIngress_ok lib i d hd
  simp [hk.1, hk.2.1]

/-- C7 at a concrete snapshot whose pod listing fails: `web/demo` and
`web/secure` are emitted, `web/ghost` (no such Service) is not. -/
theorem emitted_keys_eq_matching_ingresses_witness :
    getKubernetesState sampleLib
        (failingPodsClient [demoIngress, ghostIngress, tlsIngress] [demoService]) =
      Except.ok demoStateNoMembers ∧
    demoStateNoMembers.map (fun v => (v.Namespace, v.Name)) =
      ([demoIngress, ghostIngress, tlsIngress].filter (hasMatchingService [demoService])).map
        (fun i => (i.Namespace, i.Name)) :=
  ⟨by decide,
   emitted_keys_eq_matching_ingresses sampleLib
     (failingPodsClient [demoIngress, ghostIngress, tlsIngress] [demoService])
     [demoIngress, ghostIngress, tlsIngress] [demoService] demoStateNoMembers rfl rfl
     (by decide)⟩

/-- C8: every emitted virtual server `v` pairs with its Ingress `i` so that,
when `i` has a TLS entry, `v.ClientSSL` is the first entry's secret name,
`v.Redirect` is false exactly when the `ssl-redirect` annotation is the
literal `"false"`, and `v.Port` is 443 without an `https-port` annotation;
and when `i` has no TLS entry, `v.ClientSSL` is empty, `v.Redirect` is false
and `v.Port` is 80 without an `http-port` annotation. -/
theorem tls_policy (lib : Lib) (c : Clientset) (ings : List Ingress) (svcs : List Service)
    (ks : KubernetesState)
    (hi : c.listIngresses = Except.ok ings) (hs : c.listServices = Except.ok svcs)
    (h : getKubernetesState lib c = Except.ok ks) :
    List.Forall₂
      (fun i v =>
        (∀ t rest, i.TLS = t :: rest →
          v.ClientSSL = t.SecretName ∧
          (v.Redirect = false ↔
            annotationOf i "ingress.kubernetes.io/ssl-redirect" = some "false") ∧
          (annotationOf i "virtual-server.f5.com/https-port" = none → v.Port = 443)) ∧
        (i.TLS = [] →
          v.ClientSSL = "" ∧ v.Redirect = false ∧
          (annotationOf i "virtual-server.f5.com/http-port" = none → v.Port = 80)))
      (ings.filter (hasMatchingService svcs)) ks := by
  refine List.Forall₂.imp ?_ (getKubernetesState_forall₂ lib c ings svcs ks hi hs h)
  intro i v hp
  obtain ⟨d, b, s, hd, _, _, rfl⟩ := processIngress_some lib c svcs i v hp
  obtain ⟨_, _, _, hport, hssl, hred, _, _⟩ := decodeIngress_ok lib i d hd
  constructor
  · intro t rest ht
    obtain ⟨t1, t2, t3, _⟩ := setTLS_tls i t rest ht
    exact ⟨by simp [hssl, t1], by simp [hred, t2], fun hn => by simp [hport, t3 hn]⟩
  · intro ht
    obtain ⟨p1, p2, p3, _⟩ := setTLS_plain i ht
    exact ⟨by simp [hssl, p1], by simp [hred, p2], fun hn => by simp [hport, p3 hn]⟩

/-- C8 at a concrete snapshot: the plain demo Ingress and the TLS Ingress with
`ssl-redirect: "false"`. -/
theorem tls_policy_witness :
    getKubernetesState sampleLib (failingPodsClient [demoIngress, tlsIngress] [demoService]) =
      Except.ok demoStateNoMembers ∧
    List.Forall₂
      (fun i v =>
        (∀ t rest, i.TLS = t :: rest →
          v.ClientSSL = t.SecretName ∧
          (v.Redirect = false ↔
            annotationOf i "ingress.kubernetes.io/ssl-redirect" = some "false") ∧
          (annotationOf i "virtual-server.f5.com/https-port" = none → v.Port = 443)) ∧
        (i.TLS = [] →
          v.ClientSSL = "" ∧ v.Redirect = false ∧
          (annotationOf i "virtual-server.f5.com/http-port" = none → v.Port = 80)))
      ([demoIngress, tlsIngress].filter (hasMatchingService [demoService]))
      demoStateNoMembers :=
  ⟨by decide,
   tls_policy sampleLib (failingPodsClient [demoIngress, tlsIngress] [demoService])
     [demoIngress, tlsIngress] [demoService] demoStateNoMembers rfl rfl (by decide)⟩

/-- C9: for every emitted virtual server `v` of Ingress `i` with backend `b`,
found Service `s` and pod list `pods` returned for it, `v.Members` is the
list of the Running pods of `pods`, in order, each as a member with the
pod's name, its IP and the backend port value; so no member comes from a pod
that is not Running, every Running pod with a non-empty IP is a member, and
with a numeric `servicePort` every member carries that number. -/
theorem members_are_running_pods (lib : Lib) (c : Clientset) (ings : List Ingress)
    (svcs : List Service) (ks : KubernetesState)
    (hi : c.listIngresses = Except.ok ings) (hs : c.listServices = Except.ok svcs)
    (h : getKubernetesState lib c = Except.ok ks) :
    List.Forall₂
      (fun i v => ∀ b s pods, i.Backend = some b →
        findService i.Backend i.Namespace svcs = Except.ok (some s) →
        c.listPods i.Namespace (labelsSetString s.Selector) = Except.ok pods →
        v.Members =
          (pods.filter (fun p => decide (p.Phase = "Running"))).map
            (fun p => { Name := p.Name, Port := toInt32 b.ServicePort.IntValue,
                        IP := p.PodIP }) ∧
        (∀ m ∈ v.Members, ∃ p ∈ pods, p.Phase = "Running" ∧ m.Name = p.Name ∧ m.IP = p.PodIP) ∧
        (∀ p ∈ pods, p.Phase = "Running" → p.PodIP ≠ "" →
          { Name := p.Name, Port := toInt32 b.ServicePort.IntValue, IP := p.PodIP } ∈ v.Members) ∧
        (∀ n, b.ServicePort = IntOrString.int n → -2147483648 ≤ n → n ≤ 2147483647 →
          ∀ m ∈ v.Members, m.Port = n))
      (ings.filter (hasMatchingService svcs)) ks := by
  refine List.Forall₂.imp ?_ (getKubernetesState_forall₂ lib c ings svcs ks hi hs h)
  intro i v hp b s pods hb hf hl
  obtain ⟨d, b', s', hd, hb', hf', rfl⟩ := processIngress_some lib c svcs i v hp
  rw [hb] at hb'
  cases hb'
  rw [hf] at hf'
  cases hf'
  simp only [membersFor, hl]
  refine ⟨rfl, ?_, ?_, ?_⟩
  · intro m hm
    obtain ⟨p, hp1, rfl⟩ := List.mem_map.mp hm
    obtain ⟨hp2, hp3⟩ := List.mem_filter.mp hp1
    exact ⟨p, hp2, of_decide_eq_true hp3, rfl, rfl⟩
  · intro p hp1 hp2 _
    exact List.mem_map.mpr ⟨p, List.mem_filter.mpr ⟨hp1, decide_eq_true hp2⟩, rfl⟩
  · intro n hn hlo hhi m hm
    obtain ⟨p, _, rfl⟩ := List.mem_map.mp hm
    simp only [memberOf, hn, IntOrString.IntValue, toInt32]
    omega

/-- C9 at the snapshot of Scenario A extended with a Pending pod and a pod of
another workload: the members are `p1` and `p2` on port 8080. -/
theorem members_are_running_pods_witness :
    getKubernetesState sampleLib
        (snapshotClient [demoIngress] [demoService] [podP1, podP3, podOther, podP2]) =
      Except.ok demoStateTwoMembers ∧
    List.Forall₂
      (fun i v => ∀ b s pods, i.Backend = some b →
        findService i.Backend i.Namespace [demoService] = Except.ok (some s) →
        (snapshotClient [demoIngress] [demoService] [podP1, podP3, podOther, podP2]).listPods
          i.Namespace (labelsSetString s.Selector) = Except.ok pods →
        v.Members =
          (pods.filter (fun p => decide (p.Phase = "Running"))).map
            (fun p => { Name := p.Name, Port := toInt32 b.ServicePort.IntValue,
                        IP := p.PodIP }) ∧
        (∀ m ∈ v.Members, ∃ p ∈ pods, p.Phase = "Running" ∧ m.Name = p.Name ∧ m.IP = p.PodIP) ∧
        (∀ p ∈ pods, p.Phase = "Running" → p.PodIP ≠ "" →
          { Name := p.Name, Port := toInt32 b.ServicePort.IntValue, IP := p.PodIP } ∈ v.Members) ∧
        (∀ n, b.ServicePort = IntOrString.int n → -2147483648 ≤ n → n ≤ 2147483647 →
          ∀ m ∈ v.Members, m.Port = n))
      ([demoIngress].filter (hasMatchingService [demoService])) demoStateTwoMembers :=
  ⟨by decide,
   members_are_running_pods sampleLib
     (snapshotClient [demoIngress] [demoService] [podP1, podP3, podOther, podP2])
     [demoIngress] [demoService] demoStateTwoMembers rfl rfl (by decide)⟩

/-- C10: with the credentials set, a session opened and the pool inventory
`inventory` read, `buildCurrentLTMState` returns a state whose pools are
exactly the inventory pools of the configured partition, in inventory order;
and whenever it returns a state, that state is this one: every returned pool
has the partition and no in-partition pool is left out. -/
theorem current_pools_are_partition_pools (env : F5Env) (partition : String)
    (inventory : List Pool) (hinv : env.pools = Except.ok inventory) :
    (env.getenv "F5_USER" ≠ "" → env.getenv "F5_PASSWORD" ≠ "" → env.getenv "F5_HOST" ≠ "" →
      env.newTokenSession (env.getenv "F5_HOST") (env.getenv "F5_USER")
        (env.getenv "F5_PASSWORD") = none →
      buildCurrentLTMState env partition =
        Except.ok { Virtuals := [], Monitors := [],
                    Pools := inventory.filter (fun p => decide (p.Partition = partition)) }) ∧
    (∀ cs, buildCurrentLTMState env partition = Except.ok cs →
      cs.Pools = inventory.filter (fun p => decide (p.Partition = partition)) ∧
      (∀ p ∈ cs.Pools, p.Partition = partition) ∧
      (∀ p ∈ inventory, p.Partition = partition → p ∈ cs.Pools)) := by
  constructor
  · intro h1 h2 h3 h4
    simp [buildCurrentLTMState, h1, h2, h3, h4, hinv, appendPools_eq]
  · intro cs hcs
    have hP : cs.Pools = inventory.filter (fun p => decide (p.Partition = partition)) := by
      unfold buildCurrentLTMState at hcs
      simp only [hinv, appendPools_eq, List.nil_append] at hcs
      split at hcs
      · simp at hcs
      · split at hcs
        · simp at hcs
        · split at hcs
          · simp at hcs
          · split at hcs
            · simp at hcs
            · simp only [Except.ok.injEq] at hcs
              rw [← hcs]
    refine ⟨hP, ?_, ?_⟩
    · intro p hp
      rw [hP] at hp
      exact of_decide_eq_true (List.mem_filter.mp hp).2
    · intro p hp hpart
      rw [hP]
      exact List.mem_filter.mpr ⟨hp, decide_eq_true hpart⟩

/-- C10 at a concrete inventory of three pools, two of them in partition
`k8s-auto-ny2`. -/
theorem current_pools_are_partition_pools_witness :
    (demoEnv demoInventory).pools = Except.ok demoInventory ∧
    buildCurrentLTMState (demoEnv demoInventory) "k8s-auto-ny2" =
      Except.ok { Virtuals := [], Monitors := [],
                  Pools := [ { Name := "web_demo", Partition := "k8s-auto-ny2",
                               FullPath := "/k8s-auto-ny2/web_demo" },
                             { Name := "web_secure", Partition := "k8s-auto-ny2",
                               FullPath := "/k8s-auto-ny2/web_secure" } ] } :=
  ⟨rfl,
   ((current_pools_are_partition_pools (demoEnv demoInventory) "k8s-auto-ny2" demoInventory
      rfl).1 (by decide) (by decide) (by decide) rfl).trans (by decide)⟩

/-- C2 as stated fails: with `virtual-server.f5.com/http-port: "0"` the
emitted virtual server has port 0. -/
theorem port_range_counterexample :
    getKubernetesState sampleLib (failingPodsClient [zeroPortIngress] [demoService]) =
      Except.ok zeroPortState ∧
    ¬ (∀ v ∈ zeroPortState, 1 ≤ v.Port ∧ v.Port ≤ 65535) :=
  ⟨by decide, by decide⟩

/-- C2 amended: every emitted virtual server `v` pairs with its Ingress `i`
so that, when the port annotation that applies to `i` (`https-port` with a
TLS entry, `http-port` without) is present, `v.Port` is the value
`strconv.ParseInt` returns for it, converted to `int32`; and `v.Port` lies in
1..65535 when that annotation is absent or parses to a value in 1..65535. -/
theorem port_from_annotation (lib : Lib) (c : Clientset) (ings : List Ingress)
    (svcs : List Service) (ks : KubernetesState)
    (hi : c.listIngresses = Except.ok ings) (hs : c.listServices = Except.ok svcs)
    (h : getKubernetesState lib c = Except.ok ks) :
    List.Forall₂
      (fun i v =>
        (∀ value,
          annotationOf i (if i.TLS = [] then "virtual-server.f5.com/http-port"
                        else "virtual-server.f5.com/https-port") = some value →
          v.Port = toInt32 (ParseInt value 32).1) ∧
        ((∀ value,
          annotationOf i (if i.TLS = [] then "virtual-server.f5.com/http-port"
                        else "virtual-server.f5.com/https-port") = some value →
          1 ≤ (ParseInt value 32).1 ∧ (ParseInt value 32).1 ≤ 65535) →
          1 ≤ v.Port ∧ v.Port ≤ 65535))
      (ings.filter (hasMatchingService svcs)) ks := by
  refine List.Forall₂.imp ?_ (getKubernetesState_forall₂ lib c ings svcs ks hi hs h)
  intro i v hp
  obtain ⟨d, b, s, hd, _, _, rfl⟩ := processIngress_some lib c svcs i v hp
  obtain ⟨_, _, _, hport, _, _, _, _⟩ := decodeIngress_ok lib i d hd
  simp only [hport]
  cases ht : i.TLS with
  | nil =>
    obtain ⟨_, _, p3, p4⟩ := setTLS_plain i ht
    simp only [if_true]
    refine ⟨p4, fun hv => ?_⟩
    cases ha : annotationOf i "virtual-server.f5.com/http-port" with
    | none => rw [p3 ha]; omega
    | some value =>
      have := hv value ha
      rw [p4 value ha]
      unfold toInt32
      omega
  | cons t rest =>
    obtain ⟨_, _, t3, t4⟩ := setTLS_tls i t rest ht
    simp only [reduceCtorEq, if_false]
    refine ⟨t4, fun hv => ?_⟩
    cases ha : annotationOf i "virtual-server.f5.com/https-port" with
    | none => rw [t3 ha]; omega
    | some value =>
      have := hv value ha
      rw [t4 value ha]
      unfold toInt32
      omega

/-- C2 amended, at a concrete snapshot: `http-port: "8080"` gives port 8080. -/
theorem port_from_annotation_witness :
    getKubernetesState sampleLib (failingPodsClient [customPortIngress] [demoService]) =
      Except.ok customPortState ∧
    List.Forall₂
      (fun i v =>
        (∀ value,
          annotationOf i (if i.TLS = [] then "virtual-server.f5.com/http-port"
                        else "virtual-server.f5.com/https-port") = some value →
          v.Port = toInt32 (ParseInt value 32).1) ∧
        ((∀ value,
          annotationOf i (if i.TLS = [] then "virtual-server.f5.com/http-port"
                        else "virtual-server.f5.com/https-port") = some value →
          1 ≤ (ParseInt value 32).1 ∧ (ParseInt value 32).1 ≤ 65535) →
          1 ≤ v.Port ∧ v.Port ≤ 65535))
      ([customPortIngress].filter (hasMatchingService [demoService])) customPortState :=
  ⟨by decide,
   port_from_annotation sampleLib (failingPodsClient [customPortIngress] [demoService])
     [customPortIngress] [demoService] customPortState rfl rfl (by decide)⟩

/-- C3 as stated fails: an Ingress whose only TLS entry names no secret is
emitted with `Redirect = true` and an empty `ClientSSL`. -/
theorem redirect_counterexample :
    getKubernetesState sampleLib (failingPodsClient [emptySecretIngress] [demoService]) =
      Except.ok emptySecretState ∧
    ¬ (∀ v ∈ emptySecretState, v.Redirect = true → v.ClientSSL ≠ "") :=
  ⟨by decide, by decide⟩

/-- C3 amended: every emitted virtual server `v` with `v.Redirect = true`
comes from an Ingress with at least one TLS entry, and `v.ClientSSL` is the
secret name of the first one; it is non-empty when that secret name is. -/
theorem redirect_implies_tls (lib : Lib) (c : Clientset) (ings : List Ingress)
    (svcs : List Service) (ks : KubernetesState)
    (hi : c.listIngresses = Except.ok ings) (hs : c.listServices = Except.ok svcs)
    (h : getKubernetesState lib c = Except.ok ks) :
    List.Forall₂
      (fun i v => v.Redirect = true →
        ∃ t rest, i.TLS = t :: rest ∧ v.ClientSSL = t.SecretName ∧
          (t.SecretName ≠ "" → v.ClientSSL ≠ ""))
      (ings.filter (hasMatchingService svcs)) ks := by
  refine List.Forall₂.imp ?_ (getKubernetesState_forall₂ lib c ings svcs ks hi hs h)
  intro i v hp hred
  obtain ⟨d, b, s, hd, _, _, rfl⟩ := processIngress_some lib c svcs i v hp
  obtain ⟨_, _, _, _, hssl, hr, _, _⟩ := decodeIngress_ok lib i d hd
  simp only at hred
  cases ht : i.TLS with
  | nil =>
    have := (setTLS_plain i ht).2.1
    rw [hr, this] at hred
    cases hred
  | cons t rest =>
    have h1 := (setTLS_tls i t rest ht).1
    exact ⟨t, rest, rfl, by simp [hssl, h1], fun hne => by simpa [hssl, h1] using hne⟩

/-- C3 amended, at a concrete snapshot: a TLS Ingress with secret `cert-a`,
emitted with redirect on, and a plain Ingress. -/
theorem redirect_implies_tls_witness :
    getKubernetesState sampleLib
        (failingPodsClient [tlsRedirectIngress, demoIngress] [demoService]) =
      Except.ok tlsRedirectState ∧
    List.Forall₂
      (fun i v => v.Redirect = true →
        ∃ t rest, i.TLS = t :: rest ∧ v.ClientSSL = t.SecretName ∧
          (t.SecretName ≠ "" → v.ClientSSL ≠ ""))
      ([tlsRedirectIngress, demoIngress].filter (hasMatchingService [demoService]))
      tlsRedirectState :=
  ⟨by decide,
   redirect_implies_tls sampleLib
     (failingPodsClient [tlsRedirectIngress, demoIngress] [demoService])
     [tlsRedirectIngress, demoIngress] [demoService] tlsRedirectState rfl rfl (by decide)⟩

/-- C4 as stated fails: a Running pod without pod IP behind a backend with
the symbolic port `http` becomes a member with an empty IP and port 0. -/
theorem member_range_counterexample :
    getKubernetesState sampleLib (snapshotClient [namedPortIngress] [demoService] [podNoIP]) =
      Except.ok namedPortState ∧
    ¬ (∀ v ∈ namedPortState, ∀ m ∈ v.Members, m.IP ≠ "" ∧ 1 ≤ m.Port ∧ m.Port ≤ 65535) :=
  ⟨by decide, by decide⟩

/-- C4 amended: when every Running pod the pod listing returns has a
non-empty pod IP and every backend `servicePort` has an integer value in
1..65535, every member of every emitted virtual server has a non-empty IP
and a port in 1..65535. -/
theorem members_valid_of_valid_inputs (lib : Lib) (c : Clientset) (ings : List Ingress)
    (svcs : List Service) (ks : KubernetesState)
    (hi : c.listIngresses = Except.ok ings) (hs : c.listServices = Except.ok svcs)
    (h : getKubernetesState lib c = Except.ok ks)
    (hpods : ∀ ns selector pods, c.listPods ns selector = Except.ok pods →
      ∀ p ∈ pods, p.Phase = "Running" → p.PodIP ≠ "")
    (hport : ∀ i ∈ ings, ∀ b, i.Backend = some b →
      1 ≤ b.ServicePort.IntValue ∧ b.ServicePort.IntValue ≤ 65535) :
    ∀ v ∈ ks, ∀ m ∈ v.Members, m.IP ≠ "" ∧ 1 ≤ m.Port ∧ m.Port ≤ 65535 := by
  intro v hv m hm
  obtain ⟨i, hiem, hp⟩ :=
    forall₂_mem_right _ _ _ (getKubernetesState_forall₂ lib c ings svcs ks hi hs h) v hv
  have himem : i ∈ ings := (List.mem_filter.mp hiem).1
  obtain ⟨d, b, s, hd, hb, _, rfl⟩ := processIngress_some lib c svcs i v hp
  simp only [membersFor] at hm
  cases hl : c.listPods i.Namespace (labelsSetString s.Selector) with
  | error e => simp [hl] at hm
  | ok pods =>
    simp only [hl] at hm
    obtain ⟨p, hp1, rfl⟩ := List.mem_map.mp hm
    obtain ⟨hp2, hp3⟩ := List.mem_filter.mp hp1
    have hrange := hport i himem b hb
    refine ⟨hpods _ _ pods hl p hp2 (of_decide_eq_true hp3), ?_⟩
    simp only [memberOf, toInt32]
    omega

/-- C4 amended, at the snapshot of Scenario A with a Pending pod added. -/
theorem members_valid_of_valid_inputs_witness :
    getKubernetesState sampleLib
        (snapshotClient [demoIngress] [demoService] [podP1, podP2, podP3]) =
      Except.ok demoStateTwoMembers ∧
    ∀ v ∈ demoStateTwoMembers, ∀ m ∈ v.Members, m.IP ≠ "" ∧ 1 ≤ m.Port ∧ m.Port ≤ 65535 :=
  ⟨by decide,
   members_valid_of_valid_inputs sampleLib
     (snapshotClient [demoIngress] [demoService] [podP1, podP2, podP3])
     [demoIngress] [demoService] demoStateTwoMembers rfl rfl (by decide)
     (by
       intro ns selector pods hl p hp hrun
       simp only [snapshotClient, Except.ok.injEq] at hl
       subst hl
       have hmem := (List.mem_filter.mp hp).1
       simp only [List.mem_cons, List.mem_singleton, List.not_mem_nil, or_false] at hmem
       rcases hmem with rfl | rfl | rfl
       · decide
       · decide
       · exact absurd hrun (by decide))
     (by
       intro i himem b hb
       simp only [List.mem_singleton] at himem
       subst himem
       cases hb
       decide)⟩

/-- C5 as stated fails: with the annotation `virtual-server.f5.com/serverssl`
present but empty and no `health` annotation, `ServerSSL` is empty and the
monitor type is `https`, not `http`. -/
theorem monitor_type_counterexample :
    annotationOf emptyServerSSLIngress "virtual-server.f5.com/health" = none ∧
    getKubernetesState sampleLib (failingPodsClient [emptyServerSSLIngress] [demoService]) =
      Except.ok emptyServerSSLState ∧
    ¬ (∀ v ∈ emptyServerSSLState,
        (v.ServerSSL ≠ "" → v.Monitor.Type_ = "https") ∧
        (v.ServerSSL = "" → v.Monitor.Type_ = "http")) :=
  ⟨by decide, by decide, by decide⟩

/-- C5 amended: for every emitted virtual server `v` whose Ingress `i` has no
`health` annotation, the monitor type is `https` when `v.ServerSSL` is
non-empty, and more generally whenever the `serverssl` annotation is present
(then `v.ServerSSL` is its value, possibly empty); it is `http`, with
`v.ServerSSL` empty, when the `serverssl` annotation is absent. -/
theorem monitor_type_default (lib : Lib) (c : Clientset) (ings : List Ingress)
    (svcs : List Service) (ks : KubernetesState)
    (hi : c.listIngresses = Except.ok ings) (hs : c.listServices = Except.ok svcs)
    (h : getKubernetesState lib c = Except.ok ks) :
    List.Forall₂
      (fun i v => annotationOf i "virtual-server.f5.com/health" = none →
        (v.ServerSSL ≠ "" → v.Monitor.Type_ = "https") ∧
        (∀ value, annotationOf i "virtual-server.f5.com/serverssl" = some value →
          v.ServerSSL = value ∧ v.Monitor.Type_ = "https") ∧
        (annotationOf i "virtual-server.f5.com/serverssl" = none →
          v.ServerSSL = "" ∧ v.Monitor.Type_ = "http"))
      (ings.filter (hasMatchingService svcs)) ks := by
  refine List.Forall₂.imp ?_ (getKubernetesState_forall₂ lib c ings svcs ks hi hs h)
  intro i v hp hnone
  obtain ⟨d, b, s, hd, _, _, rfl⟩ := processIngress_some lib c svcs i v hp
  obtain ⟨_, _, _, _, _, _, hsrv, hmon⟩ := decodeIngress_ok lib i d hd
  have hmon := hmon hnone
  obtain ⟨z1, z2⟩ := setServerSSL_zero i
  simp only [hsrv, hmon]
  cases ha : annotationOf i "virtual-server.f5.com/serverssl" with
  | none =>
    obtain ⟨e1, e2⟩ := z1 ha
    simp [e1, e2]
  | some value =>
    obtain ⟨e1, e2⟩ := z2 value ha
    simp [e1, e2]

/-- C5 amended, at a concrete snapshot: `serverssl: "srv-profile"` gives
monitor type `https`, no annotation gives `http`. -/
theorem monitor_type_default_witness :
    getKubernetesState sampleLib
        (failingPodsClient [serverSSLIngress, demoIngress] [demoService]) =
      Except.ok serverSSLState ∧
    List.Forall₂
      (fun i v => annotationOf i "virtual-server.f5.com/health" = none →
        (v.ServerSSL ≠ "" → v.Monitor.Type_ = "https") ∧
        (∀ value, annotationOf i "virtual-server.f5.com/serverssl" = some value →
          v.ServerSSL = value ∧ v.Monitor.Type_ = "https") ∧
        (annotationOf i "virtual-server.f5.com/serverssl" = none →
          v.ServerSSL = "" ∧ v.Monitor.Type_ = "http"))
      ([serverSSLIngress, demoIngress].filter (hasMatchingService [demoService]))
      serverSSLState :=
  ⟨by decide,
   monitor_type_default sampleLib
     (failingPodsClient [serverSSLIngress, demoIngress] [demoService])
     [serverSSLIngress, demoIngress] [demoService] serverSSLState rfl rfl (by decide)⟩

/-- C6 as stated fails: behind a Service with an empty selector, the demo
Ingress gets every Running pod of its namespace as a member, the pod of
another workload included. -/
theorem empty_selector_counterexample :
    headlessService.Selector = [] ∧
    getKubernetesState sampleLib
        (snapshotClient [demoIngress] [headlessService] [podP1, podP3, podOther]) =
      Except.ok headlessState ∧
    ¬ (∀ v ∈ headlessState, v.Members = []) :=
  ⟨rfl, by decide, by decide⟩

/-- C6 amended: when the Service found for an Ingress has an empty selector,
the pod listing is made with the empty selector string, which selects every
pod of the Ingress's namespace, and the members of the emitted virtual server
are the Running pods of that namespace, in snapshot order. -/
theorem empty_selector_lists_namespace (lib : Lib) (ings : List Ingress)
    (svcs : List Service) (pods : List Pod) (ks : KubernetesState)
    (h : getKubernetesState lib (snapshotClient ings svcs pods) = Except.ok ks) :
    List.Forall₂
      (fun i v => ∀ b s, i.Backend = some b →
        findService i.Backend i.Namespace svcs = Except.ok (some s) → s.Selector = [] →
        labelsSetString s.Selector = "" ∧
        v.Members =
          (pods.filter
            (fun p => decide (p.Namespace = i.Namespace) && decide (p.Phase = "Running"))).map
            (fun p => { Name := p.Name, Port := toInt32 b.ServicePort.IntValue,
                        IP := p.PodIP }))
      (ings.filter (hasMatchingService svcs)) ks := by
  refine List.Forall₂.imp ?_
    (getKubernetesState_forall₂ lib (snapshotClient ings svcs pods) ings svcs ks rfl rfl h)
  intro i v hp b s hb hf hsel
  obtain ⟨d, b', s', hd, hb', hf', rfl⟩ := processIngress_some lib _ svcs i v hp
  rw [hb] at hb'
  cases hb'
  rw [hf] at hf'
  cases hf'
  have hstr : labelsSetString s.Selector = "" := by rw [hsel]; rfl
  refine ⟨hstr, ?_⟩
  simp only [membersFor, snapshotClient, hstr, podMatches, selectorRequirements, if_true,
    List.all_nil, Bool.and_true, List.filter_filter]
  have hfun : (fun a : Pod => decide (a.Phase = "Running") && decide (a.Namespace = i.Namespace)) =
      (fun p : Pod => decide (p.Namespace = i.Namespace) && decide (p.Phase = "Running")) :=
    funext (fun a => Bool.and_comm _ _)
  rw [hfun]
  rfl

/-- C6 amended, at a concrete snapshot: the members are `p1` and `db-0`. -/
theorem empty_selector_lists_namespace_witness :
    getKubernetesState sampleLib
        (snapshotClient [demoIngress] [headlessService] [podP1, podP3, podOther]) =
      Except.ok headlessState ∧
    List.Forall₂
      (fun i v => ∀ b s, i.Backend = some b →
        findService i.Backend i.Namespace [headlessService] = Except.ok (some s) →
        s.Selector = [] →
        labelsSetString s.Selector = "" ∧
        v.Members =
          ([podP1, podP3, podOther].filter
            (fun p => decide (p.Namespace = i.Namespace) && decide (p.Phase = "Running"))).map
            (fun p => { Name := p.Name, Port := toInt32 b.ServicePort.IntValue,
                        IP := p.PodIP }))
      ([demoIngress].filter (hasMatchingService [headlessService])) headlessState :=
  ⟨by decide,
   empty_selector_lists_namespace sampleLib [demoIngress] [headlessService]
     [podP1, podP3, podOther] headlessState (by decide)⟩

end F5Ctlr
